import Mathlib

/-!
Verification of the admin REST layer (`src/api/admin.py`) of
django-admin-drf: permission resolution (`AuthPermissionViewSetMixin`),
the field-diff helper (`ModelDiffHelper`), the CRUD handler traces
(`RestFulAdminMVS.create` / `RestFulAdminMVS.destroy`), and the model
registry (`RestFulAdminSite`).

The embedding is shallow: Python dicts become association lists with
string keys, exceptions become `Except`, and the framework collaborators
(serializer validation, the ORM, the audit-log store) become explicit
parameters and event traces.
-/

namespace AdminDrf

/-- Association-list lookup, mirroring Python `dict[key]` / `key in dict`.
Keys in every dict we model are unique, so first match equals dict lookup. -/
def mapLookup {α : Type} : List (String × α) → String → Option α
  | [], _ => none
  | (k2, v) :: rest, k => if k2 = k then some v else mapLookup rest k

/-- Association-list insert-or-replace, mirroring Python `dict.update({k: v})`:
an existing key keeps its position, a new key is appended at the end. -/
def mapInsert {α : Type} : List (String × α) → String → α → List (String × α)
  | [], k, v => [(k, v)]
  | (k2, w) :: rest, k, v =>
      if k2 = k then (k2, v) :: rest else (k2, w) :: mapInsert rest k v

/-- A database record: primary key, display string (`str(object)`), and the
editable fields as produced by `model_to_dict`.  Field values are modelled
as integers; only their decidable equality matters to this code. -/
structure Rec where
  pk : Nat
  rep : String
  fields : List (String × Int)
deriving DecidableEq

/-- An inbound request: HTTP method and the caller's permission codes.
`request.user.has_perm code` is membership of `code` in `userPerms`. -/
structure Request where
  method : String
  userPerms : List String
deriving DecidableEq

/-- A value of the permission map (`AuthPermissionViewSetMixin`): Python
permits a bool, a permission-code string, or a callable
`(self, action, request, obj) -> bool`.  The callable's `self` argument is
the fixed view the map belongs to, so the embedding passes only the
remaining arguments. -/
inductive PermValue where
  | pbool (b : Bool)
  | pcode (c : String)
  | pcall (f : String → Request → Option Rec → Bool)

/-- The view-side state `_has_perm_action` consults: the model options
(`app_label`, `model_name`), the handler override `permission_map`, the
class attribute `NOT_FOUND_PERMISSION_DEFAULT`, and the view's attributes.
`attrs a = none` models `getattr(self, a)` raising `AttributeError`;
`attrs a = some none` models an attribute without a `.permission`
annotation; `attrs a = some (some p)` models `@action(permission=p)`. -/
structure View where
  appLabel : String
  modelName : String
  permissionMap : List (String × PermValue)
  notFoundDefault : Bool
  attrs : String → Option (Option PermValue)

/-- `get_permission_codename(action, opts)` from Django:
`"{action}_{model_name}"`. -/
def permissionCodename (v : View) (act : String) : String :=
  act ++ "_" ++ v.modelName

/-- `_make_permission_key(action)`: `"{app_label}.{codename}"`. -/
def makePermissionKey (v : View) (act : String) : String :=
  v.appLabel ++ "." ++ permissionCodename v act

/-- The default permission map literal of `get_permission_map` (identical in
`AuthPermissionViewSetMixin` and `RestFulAdminMVS`).  Note the last key is
the string `"delete"`, not the framework action name `"destroy"`. -/
def defaultPermissionMap (v : View) : List (String × PermValue) :=
  [ ("list", PermValue.pcode (makePermissionKey v "view")),
    ("retrieve", PermValue.pcode (makePermissionKey v "view")),
    ("create", PermValue.pcode (makePermissionKey v "add")),
    ("update", PermValue.pcode (makePermissionKey v "change")),
    ("partial_update", PermValue.pcode (makePermissionKey v "change")),
    ("delete", PermValue.pcode (makePermissionKey v "delete")) ]

/-- `get_permission_map`: the default map updated (`dict.update`) with the
handler's `permission_map` override. -/
def getPermissionMap (v : View) : List (String × PermValue) :=
  v.permissionMap.foldl (fun acc kv => mapInsert acc kv.1 kv.2)
    (defaultPermissionMap v)

/-- `_has_perm_action(action, request, obj)`.  The `Except` error models the
`AttributeError` that `getattr(self, action)` raises when the view has no
attribute named `action`. -/
def hasPermAction (v : View) (act : String) (req : Request) (obj : Option Rec) :
    Except String Bool :=
  if req.method = "OPTIONS" ∨ act = "metadata" then Except.ok true
  else if act = "" then Except.ok false
  else
    match v.attrs act with
    | none => Except.error "AttributeError"
    | some attrPerm =>
      let permMap := getPermissionMap v
      let permMap :=
        match attrPerm with
        | some p => mapInsert permMap act p
        | none => permMap
      match mapLookup permMap act with
      | none => Except.ok v.notFoundDefault
      | some (PermValue.pcall f) => Except.ok (f act req obj)
      | some (PermValue.pbool b) => Except.ok b
      | some (PermValue.pcode c) => Except.ok (req.userPerms.contains c)

/-- The attribute table of a stock `RestFulAdminMVS` subclass: the six
handler methods plus `metadata` exist, none carries a `.permission`
annotation. -/
def defaultAttrs : String → Option (Option PermValue) := fun a =>
  if a = "list" ∨ a = "create" ∨ a = "retrieve" ∨ a = "update" ∨
     a = "partial_update" ∨ a = "destroy" ∨ a = "metadata"
  then some none else none

/-! ## ModelDiffHelper -/

/-- `ModelDiffHelper` state: `__initial` and `_new_object`.  Snapshots are
the dicts produced by `_dict` (via `model_to_dict`); the constructor's
`_dict(initial)` conversion is already applied, so the embedding takes
snapshots directly.  Values are an arbitrary type with decidable
equality, matching "host's native equality". -/
structure DiffHelper (α : Type) where
  initial : List (String × α)
  newObject : Option (List (String × α))

/-- `ModelDiffHelper.__init__(initial)`. -/
def dhInit {α : Type} (i : List (String × α)) : DiffHelper α :=
  { initial := i, newObject := none }

/-- `set_changed_model(new_object)`: note the source assigns the NEW
snapshot `data` to `__initial` when `_new_object` is already set
(`self.__initial = data`), and then sets `_new_object = data` as well. -/
def setChangedModel {α : Type} (h : DiffHelper α) (d : List (String × α)) :
    DiffHelper α :=
  match h.newObject with
  | some _ => { initial := d, newObject := some d }
  | none => { initial := h.initial, newObject := some d }

/-- The comprehension `[(k, (v, d2[k])) for k, v in d1.items() if v != d2[k]]`.
`d2[k]` on a key absent from `d2` raises `KeyError`. -/
def diffEntries {α : Type} [DecidableEq α] (d1 d2 : List (String × α)) :
    Except String (List (String × α × α)) :=
  match d1 with
  | [] => Except.ok []
  | (k, v) :: rest =>
    match mapLookup d2 k with
    | none => Except.error "KeyError"
    | some w =>
      match diffEntries rest d2 with
      | Except.error e => Except.error e
      | Except.ok tail =>
          Except.ok (if v = w then tail else (k, (v, w)) :: tail)

/-- The `diff` property.  `if not self._new_object` is Python falsiness:
it returns `{}` both when `_new_object` is `None` and when it is an empty
dict. -/
def dhDiff {α : Type} [DecidableEq α] (h : DiffHelper α) :
    Except String (List (String × α × α)) :=
  match h.newObject with
  | none => Except.ok []
  | some d2 => if d2.isEmpty then Except.ok [] else diffEntries h.initial d2

/-- The diff as the SPEC describes it ("only fields present in both and
with unequal values appear in the diff"), used to compare the code's
behaviour against the specified one. -/
def specDiff {α : Type} [DecidableEq α] (d1 d2 : List (String × α)) :
    List (String × α × α) :=
  d1.filterMap (fun kv =>
    match mapLookup d2 kv.1 with
    | none => none
    | some w => if kv.2 = w then none else some (kv.1, (kv.2, w)))

/-! ## CRUD handler traces (`RestFulAdminMVS.create` / `.destroy`)

The framework dispatches `POST` to `create` with `view.action = "create"`
and `DELETE` to `destroy` with `view.action = "destroy"`, runs
`HasPermissionAccess.has_permission` (collection level,
`_has_perm_action(action, request)`) before the handler, and
`has_object_permission` (object level, with the fetched instance) inside
`get_object`.  Side effects are recorded as an event trace. -/

/-- Observable side effects of a handler run, in execution order. -/
inductive Event where
  | persistCreate (objId : Nat)
  | logAddition (objId : Nat)
  | logDeletion (objId : Nat) (objRep : String)
  | performDestroy (objId : Nat)
deriving DecidableEq

/-- Handler responses. -/
inductive Resp where
  | created
  | noContent
  | forbidden
  | notFound
  | clientError
  | serverError (e : String)
deriving DecidableEq

/-- A validated-serializer payload, abstracting `request.data`. -/
def Payload : Type := List (String × Int)

/-- `RestFulAdminMVS.create` together with the framework's permission
check.  `isValid` models `serializer.is_valid` (schema validation is the
framework's, supplied as a parameter); `mkRec` models
`perform_create`/`serializer.save` producing the persisted record.
Returns (event trace, resulting database, response).  On permission
failure the framework returns 403 before the handler body runs; on
validation failure `is_valid(raise_exception=True)` raises before
`perform_create` and `log_addition`. -/
def createOp (v : View) (req : Request) (isValid : Payload → Bool)
    (mkRec : Payload → Rec) (db : List Rec) (p : Payload) :
    List Event × List Rec × Resp :=
  match hasPermAction v "create" req none with
  | Except.error e => ([], db, Resp.serverError e)
  | Except.ok false => ([], db, Resp.forbidden)
  | Except.ok true =>
    if isValid p then
      let r := mkRec p
      ([Event.persistCreate r.pk, Event.logAddition r.pk],
       db ++ [r], Resp.created)
    else ([], db, Resp.clientError)

/-- `RestFulAdminMVS.destroy` together with the framework's permission
checks: collection-level check, `get_object` (404 when the primary key is
absent, then the object-level check), then `log_deletion` (capturing
`object_id` and `str(instance)` while the instance exists), then
`perform_destroy`. -/
def destroyOp (v : View) (req : Request) (db : List Rec) (pk : Nat) :
    List Event × List Rec × Resp :=
  match hasPermAction v "destroy" req none with
  | Except.error e => ([], db, Resp.serverError e)
  | Except.ok false => ([], db, Resp.forbidden)
  | Except.ok true =>
    match db.find? (fun r => r.pk == pk) with
    | none => ([], db, Resp.notFound)
    | some inst =>
      match hasPermAction v "destroy" req (some inst) with
      | Except.error e => ([], db, Resp.serverError e)
      | Except.ok false => ([], db, Resp.forbidden)
      | Except.ok true =>
          ([Event.logDeletion inst.pk inst.rep, Event.performDestroy inst.pk],
           db.filter (fun r => r.pk != pk), Resp.noContent)

/-! ## RestFulAdminSite registry -/

/-- A model class as the registry sees it: identity (`__name__`),
`_meta.abstract`, and the `_meta` display names `generate_docs` reads. -/
structure Model where
  name : String
  isAbstract : Bool
  modelName : String
  verboseName : String
  verboseNamePlural : String
deriving DecidableEq

/-- A view class: either a pre-existing class (the supplied or default
`view_class`) or one synthesized by `type(f"{name}Admin", (parent,), opts)`,
whose namespace is a snapshot of the `options` dict at creation time. -/
inductive ViewCls where
  | base (nm : String)
  | synth (nm : String) (parent : ViewCls) (opts : List (String × String))
deriving DecidableEq

/-- The base class of a synthesized view class, `none` for a pre-existing
one. -/
def ViewCls.parentOf : ViewCls → Option ViewCls
  | ViewCls.base _ => none
  | ViewCls.synth _ p _ => some p

/-- `RestFulAdminSite` state: `_registry` (a dict keyed by model, kept as
an insertion-ordered association list) and `default_view_class`. -/
structure Site where
  registry : List (Model × ViewCls)
  defaultViewClass : ViewCls

/-- `is_registered(model)` / the `model in self._registry` checks. -/
def siteIsRegistered (s : Site) (m : Model) : Bool :=
  s.registry.any (fun p => decide (p.1 = m))

/-- `registeredClass s m` is the view class `_registry[m]`. -/
def registeredClass (s : Site) (m : Model) : Option ViewCls :=
  (s.registry.find? (fun p => decide (p.1 = m))).map Prod.snd

/-- The exceptions `register`/`unregister` raise. -/
inductive RegError where
  | improperlyConfigured (m : Model)
  | alreadyRegistered (m : Model)
  | notRegistered (m : Model)
deriving DecidableEq

/-- `generate_docs(model)`: the documentation template with the model's
`model_name`, `verbose_name` and `verbose_name_plural` substituted. -/
def generateDocs (m : Model) : String :=
  "\nList all " ++ m.verboseNamePlural ++ ", create new " ++ m.verboseName ++
  "\n> `[GET]` `" ++ m.modelName ++ "/`<br/>\n> `[POST]` `" ++ m.modelName ++
  "/`\n\nOperate on specific " ++ m.verboseName ++
  " selected by `<pk>` field value:\n> `[GET]` `" ++ m.modelName ++
  "/<pk>/` => Get " ++ m.verboseName ++ "<br/>\n> `[PATCH | PUT]` `" ++
  m.modelName ++ "/<pk>/` => Update " ++ m.verboseName ++
  "<br/>\n> `[DELETE]` `" ++ m.modelName ++ "/<pk>/` => Delete " ++
  m.verboseName ++ "\n\nList " ++ m.verboseName ++
  " fields for form creation, view supported operations for " ++
  m.verboseNamePlural ++ "\n> `[OPTIONS]` `" ++ m.modelName ++
  "/`<br/>\n> `[OPTIONS]` `" ++ m.modelName ++ "/<pk>/`\n            "

/-- The mutable state of one `register` call: the site, and the two loop
variables `view_class` and `options` that are rebound on each iteration. -/
structure RegState where
  site : Site
  viewCls : ViewCls
  opts : List (String × String)

/-- The `for model in model_or_iterable` loop of `register`.  A raised
exception aborts the loop but keeps every mutation already made to
`self._registry` — the partial state is returned alongside the error. -/
def registerLoop (st : RegState) : List Model → RegState × Option RegError
  | [] => (st, none)
  | m :: rest =>
    if m.isAbstract then (st, some (RegError.improperlyConfigured m))
    else if siteIsRegistered st.site m then
      (st, some (RegError.alreadyRegistered m))
    else
      let opts2 := mapInsert st.opts "__doc__" (generateDocs m)
      let cls := ViewCls.synth (m.name ++ "Admin") st.viewCls opts2
      let site2 := { st.site with registry := st.site.registry ++ [(m, cls)] }
      registerLoop { site := site2, viewCls := cls, opts := opts2 } rest

/-- `register(model_or_iterable, view_class=None, **options)`, already
normalised to a list of models (`isinstance(model_or_iterable, ModelBase)`
wraps a single model in a list).  `vc = none` selects
`default_view_class`. -/
def registerSite (s : Site) (ms : List Model) (vc : Option ViewCls)
    (opts : List (String × String)) : RegState × Option RegError :=
  registerLoop
    { site := s, viewCls := vc.getD s.defaultViewClass, opts := opts } ms

/-- `unregister(model_or_iterable)`, normalised to a list.  `del` removes
the key; a `NotRegistered` exception aborts the loop keeping earlier
removals. -/
def unregisterSite (s : Site) : List Model → Site × Option RegError
  | [] => (s, none)
  | m :: rest =>
    if siteIsRegistered s m then
      unregisterSite
        { s with registry := s.registry.filter (fun p => decide (p.1 ≠ m)) }
        rest
    else (s, some (RegError.notRegistered m))

/-! ## Concrete fixtures -/

/-- A stock view for a model `widget` of app `shop`, with the class
defaults `permission_map = {}` and `NOT_FOUND_PERMISSION_DEFAULT = False`. -/
def widgetView : View :=
  { appLabel := "shop", modelName := "widget", permissionMap := [],
    notFoundDefault := false, attrs := defaultAttrs }

/-- The same view with the not-found default reconfigured to allowed. -/
def widgetViewOpenDefault : View :=
  { widgetView with notFoundDefault := true }

/-- A DELETE request by a caller holding the model's delete permission. -/
def deleteReq : Request :=
  { method := "DELETE", userPerms := ["shop.delete_widget"] }

/-- A GET request by a caller holding no permissions. -/
def getReq : Request := { method := "GET", userPerms := [] }

/-! ## Helper lemmas -/

theorem mapLookup_mapInsert_self {α : Type} (l : List (String × α))
    (k : String) (v : α) : mapLookup (mapInsert l k v) k = some v := by
  induction l with
  | nil => simp [mapInsert, mapLookup]
  | cons hd tl ih =>
    obtain ⟨k2, w⟩ := hd
    by_cases h : k2 = k
    · simp [mapInsert, mapLookup, h]
    · simp [mapInsert, mapLookup, h, ih]

theorem mapLookup_mapInsert_ne {α : Type} (l : List (String × α))
    (k k2 : String) (v : α) (h : k2 ≠ k) :
    mapLookup (mapInsert l k v) k2 = mapLookup l k2 := by
  have h2 : ¬ k = k2 := fun he => h he.symm
  induction l with
  | nil => simp [mapInsert, mapLookup, h2]
  | cons hd tl ih =>
    obtain ⟨k3, w⟩ := hd
    by_cases h3 : k3 = k
    · subst h3
      simp [mapInsert, mapLookup, h2]
    · simp only [mapInsert, if_neg h3]
      by_cases hk2 : k3 = k2
      · simp [mapLookup, hk2]
      · simp [mapLookup, hk2, ih]

/-! ## Claim C1 -/

/-- Claim C1: on a stock handler, the framework action for the delete
operation is `destroy`, but the effective permission map only contains the
dead key `delete`; resolution therefore returns the not-found default
(denied) even for a caller holding the model's delete permission, instead
of delegating to `user.has_perm` with the delete permission code. -/
theorem c1_destroy_lookup_misses_delete_entry :
    hasPermAction widgetView "destroy" deleteReq none = Except.ok false
    ∧ deleteReq.userPerms.contains (makePermissionKey widgetView "delete")
        = true
    ∧ mapLookup (getPermissionMap widgetView) "destroy" = none
    ∧ mapLookup (getPermissionMap widgetView) "delete"
        = some (PermValue.pcode (makePermissionKey widgetView "delete"))
    ∧ widgetView.notFoundDefault = false := by
  exact ⟨rfl, rfl, rfl, rfl, rfl⟩

/-! ## Claim C3 -/

/-- Claim C3 counterexample: with the not-found default configured to
allowed (`true`), an empty action on a non-OPTIONS request still resolves
to denied — the configurable default is not consulted. -/
theorem c3_empty_action_cex :
    widgetViewOpenDefault.notFoundDefault = true
    ∧ getReq.method ≠ "OPTIONS"
    ∧ hasPermAction widgetViewOpenDefault "" getReq none = Except.ok false
    ∧ hasPermAction widgetViewOpenDefault "" getReq none ≠ Except.ok true := by
  refine ⟨rfl, by decide, rfl, ?_⟩
  intro h
  rw [show hasPermAction widgetViewOpenDefault "" getReq none
        = Except.ok false from rfl] at h
  injection h with h2
  exact Bool.noConfusion h2

/-- Claim C3 (amended): an empty action on a non-OPTIONS request resolves
to denied (`false`) unconditionally, regardless of the configured
not-found default. -/
theorem c3_empty_action_always_denied (v : View) (req : Request)
    (obj : Option Rec) (h : req.method ≠ "OPTIONS") :
    hasPermAction v "" req obj = Except.ok false := by
  unfold hasPermAction
  rw [if_neg, if_pos rfl]
  rintro (hm | ha)
  · exact h hm
  · exact absurd ha (by decide)

theorem c3_empty_action_always_denied_wit :
    getReq.method ≠ "OPTIONS"
    ∧ hasPermAction widgetViewOpenDefault "" getReq none = Except.ok false := by
  have h : getReq.method ≠ "OPTIONS" := by decide
  exact ⟨h, c3_empty_action_always_denied widgetViewOpenDefault getReq none h⟩

/-! ## Claim C5 -/

/-- Claim C5: an action absent from the effective permission map (no
per-operation annotation, no handler entry, no default entry) resolves to
the configured not-found default; the metadata action or an OPTIONS
request always resolves to allowed, regardless of the map and the
default. -/
theorem c5_absent_action_default (v : View) (act : String) (req : Request)
    (obj : Option Rec) :
    ((req.method = "OPTIONS" ∨ act = "metadata") →
       hasPermAction v act req obj = Except.ok true)
    ∧ (req.method ≠ "OPTIONS" → act ≠ "metadata" → act ≠ "" →
       v.attrs act = some none →
       mapLookup (getPermissionMap v) act = none →
       hasPermAction v act req obj = Except.ok v.notFoundDefault) := by
  constructor
  · intro h
    unfold hasPermAction
    rw [if_pos h]
  · intro hm ha he hattr hmap
    unfold hasPermAction
    rw [if_neg (by rintro (h | h); exact hm h; exact ha h), if_neg he, hattr]
    simp only [hmap]

theorem c5_absent_action_default_wit :
    hasPermAction widgetView "metadata" getReq none = Except.ok true
    ∧ hasPermAction widgetView "destroy" getReq none = Except.ok false := by
  refine ⟨(c5_absent_action_default widgetView "metadata" getReq none).1
      (Or.inr rfl), ?_⟩
  exact (c5_absent_action_default widgetView "destroy" getReq none).2
    (by decide) (by decide) (by decide) rfl rfl

/-! ## Diff-helper lemmas -/

/-- In a snapshot with duplicate-free field names (as `model_to_dict`
produces), lookup of a present field returns its value. -/
theorem mapLookup_mem_of_nodup {α : Type} (l : List (String × α))
    (k : String) (v : α) (hnd : (l.map Prod.fst).Nodup) (hm : (k, v) ∈ l) :
    mapLookup l k = some v := by
  induction l with
  | nil => cases hm
  | cons hd tl ih =>
    obtain ⟨k2, w⟩ := hd
    simp only [List.map_cons, List.nodup_cons] at hnd
    rcases List.mem_cons.mp hm with heq | hmem
    · cases heq
      simp [mapLookup]
    · have hne : ¬ k2 = k := by
        intro h
        subst h
        exact hnd.1 (List.mem_map.mpr ⟨(k2, v), hmem, rfl⟩)
      simp [mapLookup, hne, ih hnd.2 hmem]

/-- The comprehension returns the empty diff whenever every pair of the
first snapshot is found unchanged in the second. -/
theorem diffEntries_of_lookup_eq {α : Type} [DecidableEq α]
    (d1 d2 : List (String × α))
    (hl : ∀ kv ∈ d1, mapLookup d2 kv.1 = some kv.2) :
    diffEntries d1 d2 = Except.ok [] := by
  induction d1 with
  | nil => rfl
  | cons hd tl ih =>
    obtain ⟨k, v⟩ := hd
    have h1 := hl (k, v) (List.mem_cons_self _ _)
    have h2 := ih (fun kv hkv => hl kv (List.mem_cons_of_mem _ hkv))
    simp only [diffEntries]
    rw [h1, h2]
    simp

/-! ## Claim C2 -/

/-- Initial, first and second snapshots used for the diff-helper claims. -/
def snapA0 : List (String × Int) := [("a", 0)]

def snapA1 : List (String × Int) := [("a", 1)]

def snapA2 : List (String × Int) := [("a", 2)]

/-- Claim C2 counterexample: after two successive snapshot updates with s1
then s2, the code's diff is empty rather than the field-by-field
comparison of s1 against s2 — `set_changed_model` installs the NEW
snapshot as `__initial`, not the previous new one. -/
theorem c2_chained_diff_cex :
    dhDiff (setChangedModel (setChangedModel (dhInit snapA0) snapA1) snapA2)
      = Except.ok []
    ∧ diffEntries snapA1 snapA2 = Except.ok [("a", ((1 : Int), 2))]
    ∧ ([] : List (String × Int × Int)) ≠ [("a", ((1 : Int), 2))] := by
  exact ⟨rfl, rfl, by decide⟩

/-- Claim C2 (amended): on a helper whose snapshot update has already run
at least once, a subsequent call installs the newly captured snapshot as
BOTH the initial and the new snapshot; the diff then compares the last
snapshot with itself and is empty (for the duplicate-free field names
`model_to_dict` yields). -/
theorem c2_second_update_resets_both {α : Type} [DecidableEq α]
    (h : DiffHelper α) (s2 : List (String × α))
    (hcalled : h.newObject.isSome = true)
    (hnd : (s2.map Prod.fst).Nodup) :
    (setChangedModel h s2).initial = s2
    ∧ (setChangedModel h s2).newObject = some s2
    ∧ dhDiff (setChangedModel h s2) = Except.ok [] := by
  obtain ⟨d, hd⟩ := Option.isSome_iff_exists.mp hcalled
  have hset : setChangedModel h s2
      = { initial := s2, newObject := some s2 } := by
    unfold setChangedModel
    rw [hd]
  refine ⟨by rw [hset], by rw [hset], ?_⟩
  rw [hset]
  unfold dhDiff
  by_cases he : s2.isEmpty
  · simp [he]
  · simp only [he, if_false]
    exact diffEntries_of_lookup_eq s2 s2
      (fun kv hkv => mapLookup_mem_of_nodup s2 kv.1 kv.2 hnd hkv)

theorem c2_second_update_resets_both_wit :
    ((setChangedModel (dhInit snapA0) snapA1).newObject.isSome = true)
    ∧ ((snapA2.map Prod.fst).Nodup)
    ∧ dhDiff (setChangedModel (setChangedModel (dhInit snapA0) snapA1) snapA2)
        = Except.ok [] := by
  have h1 : (setChangedModel (dhInit snapA0) snapA1).newObject.isSome
      = true := rfl
  have h2 : ((snapA2.map Prod.fst).Nodup) := by decide
  exact ⟨h1, h2,
    (c2_second_update_resets_both (setChangedModel (dhInit snapA0) snapA1)
      snapA2 h1 h2).2.2⟩

/-! ## Claim C4 -/

/-- Claim C4 counterexample: a field of the initial snapshot missing from
a non-empty updated snapshot makes the diff raise `KeyError` — the diff is
not total on snapshot pairs with differing key sets. -/
theorem c4_diff_keyerror_cex :
    dhDiff ({ initial := [("a", (1 : Int))], newObject := some [("b", 2)] }
        : DiffHelper Int) = Except.error "KeyError"
    ∧ ∀ l : List (String × Int × Int),
        (Except.error "KeyError" : Except String (List (String × Int × Int)))
          ≠ Except.ok l := by
  refine ⟨rfl, fun l h => Except.noConfusion h⟩

/-- Claim C4 (amended): when every field of the initial snapshot is
present in the updated snapshot, the diff is total and equals the spec's
field-by-field comparison — exactly the fields present in both snapshots
with unequal values, mapped to their (old, new) pair; every diff entry
names a field of the initial snapshot, found in the updated one, with
distinct old and new values, so fields present in only one snapshot never
appear. -/
theorem c4_diff_total_on_common_keys {α : Type} [DecidableEq α]
    (d1 d2 : List (String × α))
    (hk : ∀ kv ∈ d1, (mapLookup d2 kv.1).isSome = true) :
    dhDiff { initial := d1, newObject := some d2 }
      = Except.ok (specDiff d1 d2)
    ∧ diffEntries d1 d2 = Except.ok (specDiff d1 d2)
    ∧ ∀ e ∈ specDiff d1 d2,
        e.1 ∈ d1.map Prod.fst ∧ mapLookup d2 e.1 = some e.2.2
          ∧ e.2.1 ≠ e.2.2 := by
  have hmain : ∀ (l : List (String × α)),
      (∀ kv ∈ l, (mapLookup d2 kv.1).isSome = true) →
      diffEntries l d2 = Except.ok (specDiff l d2) := by
    intro l
    induction l with
    | nil => intro _; rfl
    | cons hd tl ih =>
      intro hl
      obtain ⟨k, v⟩ := hd
      obtain ⟨w, hw⟩ := Option.isSome_iff_exists.mp
        (hl (k, v) (List.mem_cons_self _ _))
      have h2 := ih (fun kv hkv => hl kv (List.mem_cons_of_mem _ hkv))
      simp only [diffEntries, specDiff, List.filterMap_cons]
      rw [hw, h2]
      by_cases hv : v = w
      · simp [hv, specDiff]
      · simp [hv, specDiff]
  have hde := hmain d1 hk
  refine ⟨?_, hde, ?_⟩
  · unfold dhDiff
    by_cases he : d2.isEmpty
    · have hd1 : d1 = [] := by
        cases d1 with
        | nil => rfl
        | cons hd tl =>
          exfalso
          have := hk hd (List.mem_cons_self _ _)
          rw [List.isEmpty_iff.mp he] at this
          simp [mapLookup] at this
      subst hd1
      simp [he, specDiff]
    · simp only [he, if_false]
      exact hde
  · intro e he
    simp only [specDiff, List.mem_filterMap] at he
    obtain ⟨kv, hkv, hfe⟩ := he
    split at hfe
    · cases hfe
    · rename_i w hlook
      split at hfe
      · cases hfe
      · rename_i hv
        injection hfe with hfe2
        subst hfe2
        exact ⟨List.mem_map.mpr ⟨kv, hkv, rfl⟩, hlook, hv⟩

theorem c4_diff_total_on_common_keys_wit :
    (∀ kv ∈ [("a", (1 : Int)), ("b", 2)],
        (mapLookup [("a", (1 : Int)), ("b", 3)] kv.1).isSome = true)
    ∧ dhDiff (⟨[("a", (1 : Int)), ("b", 2)], some [("a", 1), ("b", 3)]⟩
          : DiffHelper Int)
        = Except.ok [("b", ((2 : Int), 3))] := by
  have hk : ∀ kv ∈ [("a", (1 : Int)), ("b", 2)],
      (mapLookup [("a", (1 : Int)), ("b", 3)] kv.1).isSome = true := by
    decide
  have h := (c4_diff_total_on_common_keys [("a", (1 : Int)), ("b", 2)]
    [("a", 1), ("b", 3)] hk).1
  exact ⟨hk, h⟩

/-! ## Claims C6 and C7 -/

/-- A view authorized for every destroy request: the handler override
`permission_map = {"destroy": True}` (overrides take precedence over the
defaults, and `"destroy"` is the framework action name). -/
def widgetViewDestroyOpen : View :=
  { widgetView with permissionMap := [("destroy", PermValue.pbool true)] }

/-- A POST request by a caller holding the model's add permission. -/
def addReq : Request := { method := "POST", userPerms := ["shop.add_widget"] }

/-- A concrete record and a one-record database. -/
def recOne : Rec := ⟨1, "Widget object (1)", [("name", 0)]⟩

def recTwo : Rec := ⟨2, "w2", []⟩

def dbOne : List Rec := [recOne]

/-- Claim C6: whenever a destroy request reaches the execute phase (both
permission checks pass and the record is found), the emitted trace is
exactly the deletion audit entry — carrying the identity and display
string captured while the record exists — followed by the delete; the
audit entry's index strictly precedes the delete's. -/
theorem c6_log_before_delete (v : View) (req : Request) (db : List Rec)
    (pk : Nat) (inst : Rec)
    (hperm : hasPermAction v "destroy" req none = Except.ok true)
    (hfind : db.find? (fun r => r.pk == pk) = some inst)
    (hobj : hasPermAction v "destroy" req (some inst) = Except.ok true) :
    (destroyOp v req db pk).1
      = [Event.logDeletion inst.pk inst.rep, Event.performDestroy inst.pk]
    ∧ ∃ i j, i < j
        ∧ (destroyOp v req db pk).1.get? i
            = some (Event.logDeletion inst.pk inst.rep)
        ∧ (destroyOp v req db pk).1.get? j
            = some (Event.performDestroy inst.pk) := by
  have htr : destroyOp v req db pk
      = ([Event.logDeletion inst.pk inst.rep, Event.performDestroy inst.pk],
         db.filter (fun r => r.pk != pk), Resp.noContent) := by
    simp only [destroyOp, hperm, hfind, hobj]
  rw [htr]
  exact ⟨rfl, 0, 1, Nat.zero_lt_one, rfl, rfl⟩

theorem c6_log_before_delete_wit :
    hasPermAction widgetViewDestroyOpen "destroy" deleteReq none
      = Except.ok true
    ∧ dbOne.find? (fun r => r.pk == 1) = some recOne
    ∧ (destroyOp widgetViewDestroyOpen deleteReq dbOne 1).1
        = [Event.logDeletion 1 "Widget object (1)", Event.performDestroy 1] := by
  have hperm : hasPermAction widgetViewDestroyOpen "destroy" deleteReq none
      = Except.ok true := rfl
  have hfind : dbOne.find? (fun r => r.pk == 1) = some recOne := by
    simp [dbOne, recOne]
  have hobj : hasPermAction widgetViewDestroyOpen "destroy" deleteReq
      (some recOne) = Except.ok true := rfl
  exact ⟨hperm, hfind,
    (c6_log_before_delete widgetViewDestroyOpen deleteReq dbOne 1 recOne
      hperm hfind hobj).1⟩

/-- Claim C7: a create request failing authorization yields a forbidden
response with no events and an unchanged database; a request passing
authorization but failing schema validation yields a client-error response
with no events and an unchanged database; and any addition audit entry in
a create trace is strictly preceded by the persist event of the same
record. -/
theorem c7_create_short_circuits (v : View) (req : Request)
    (isValid : Payload → Bool) (mkRec : Payload → Rec) (db : List Rec)
    (p : Payload) :
    (hasPermAction v "create" req none = Except.ok false →
       createOp v req isValid mkRec db p = ([], db, Resp.forbidden))
    ∧ (hasPermAction v "create" req none = Except.ok true →
       isValid p = false →
       createOp v req isValid mkRec db p = ([], db, Resp.clientError))
    ∧ (∀ i n, (createOp v req isValid mkRec db p).1.get? i
          = some (Event.logAddition n) →
        ∃ j, j < i ∧ (createOp v req isValid mkRec db p).1.get? j
          = some (Event.persistCreate n)) := by
  refine ⟨?_, ?_, ?_⟩
  · intro h
    unfold createOp
    rw [h]
  · intro h hv
    unfold createOp
    rw [h]
    simp [hv]
  · intro i n hget
    unfold createOp at hget ⊢
    cases hp : hasPermAction v "create" req none with
    | error e =>
      rw [hp] at hget
      simp at hget
    | ok b =>
      cases b with
      | false =>
        rw [hp] at hget
        simp at hget
      | true =>
        rw [hp] at hget
        cases hv : isValid p with
        | false =>
          rw [hv] at hget
          simp at hget
        | true =>
          rw [hv] at hget
          match i with
          | 0 => simp at hget
          | 1 =>
            have hn : (mkRec p).pk = n := by
              simpa using hget
            refine ⟨0, Nat.zero_lt_one, ?_⟩
            rw [← hn]
            simp
          | (k + 2) => simp at hget

theorem c7_create_short_circuits_wit :
    hasPermAction widgetView "create" getReq none = Except.ok false
    ∧ createOp widgetView getReq (fun _ => true) (fun _ => recTwo) dbOne []
        = ([], dbOne, Resp.forbidden)
    ∧ hasPermAction widgetView "create" addReq none = Except.ok true
    ∧ createOp widgetView addReq (fun _ => false) (fun _ => recTwo) dbOne []
        = ([], dbOne, Resp.clientError)
    ∧ (createOp widgetView addReq (fun _ => true)
        (fun _ => recTwo) dbOne []).1.get? 1 = some (Event.logAddition 2)
    ∧ ∃ j, j < 1 ∧ (createOp widgetView addReq (fun _ => true)
        (fun _ => recTwo) dbOne []).1.get? j
        = some (Event.persistCreate 2) := by
  have h1 : hasPermAction widgetView "create" getReq none
      = Except.ok false := rfl
  have h2 : hasPermAction widgetView "create" addReq none
      = Except.ok true := rfl
  have h3 : (createOp widgetView addReq (fun _ => true)
      (fun _ => recTwo) dbOne []).1.get? 1
      = some (Event.logAddition 2) := rfl
  refine ⟨h1, (c7_create_short_circuits widgetView getReq (fun _ => true)
      (fun _ => recTwo) dbOne []).1 h1,
    h2, (c7_create_short_circuits widgetView addReq (fun _ => false)
      (fun _ => recTwo) dbOne []).2.1 h2 rfl,
    h3, (c7_create_short_circuits widgetView addReq (fun _ => true)
      (fun _ => recTwo) dbOne []).2.2 1 2 h3⟩

/-! ## Registry lemmas and fixtures -/

theorem any_key_append (l1 l2 : List (Model × ViewCls)) (m : Model) :
    (l1 ++ l2).any (fun p => decide (p.1 = m))
      = (l1.any (fun p => decide (p.1 = m))
          || l2.any (fun p => decide (p.1 = m))) := by
  exact List.any_append

/-- After filtering out a key, no entry with that key remains. -/
theorem any_key_filter_self (l : List (Model × ViewCls)) (m : Model) :
    (l.filter (fun p => decide (p.1 ≠ m))).any (fun p => decide (p.1 = m))
      = false := by
  induction l with
  | nil => rfl
  | cons hd tl ih =>
    by_cases h : hd.1 = m
    · simp [List.filter_cons, h, ih]
    · simp [List.filter_cons, h, ih]

/-- `find?` on an appended registry skips a prefix holding no entry for
the key. -/
theorem find_key_append (l1 l2 : List (Model × ViewCls)) (m : Model)
    (h : l1.any (fun p => decide (p.1 = m)) = false) :
    (l1 ++ l2).find? (fun p => decide (p.1 = m))
      = l2.find? (fun p => decide (p.1 = m)) := by
  induction l1 with
  | nil => rfl
  | cons hd tl ih =>
    simp only [List.any_cons, Bool.or_eq_false_iff] at h
    simp only [List.cons_append, List.find?_cons, h.1]
    exact ih h.2

/-- A synthesized class is distinct from the class it inherits from. -/
theorem synth_ne_parent (nm : String) (v : ViewCls)
    (o : List (String × String)) : ViewCls.synth nm v o ≠ v := by
  intro h
  have hs := congrArg sizeOf h
  simp only [ViewCls.synth.sizeOf_spec] at hs
  omega

/-- Concrete models and a fresh site. -/
def widgetModel : Model :=
  ⟨"Widget", false, "widget", "widget", "widgets"⟩

def gadgetModel : Model :=
  ⟨"Gadget", false, "gadget", "gadget", "gadgets"⟩

def emptySite : Site := ⟨[], ViewCls.base "RestFulAdminMVS"⟩

/-! ## Claim C8 -/

/-- Claim C8: register on an already-registered (non-abstract) model
raises `AlreadyRegistered` leaving the site unchanged; unregister on an
unregistered model raises `NotRegistered`; `is_registered` is true right
after a successful register and false right after a subsequent
unregister. -/
theorem c8_registry_lifecycle (s : Site) (m : Model) (vc : Option ViewCls)
    (opts : List (String × String)) :
    (m.isAbstract = false → siteIsRegistered s m = true →
       (registerSite s [m] vc opts).2 = some (RegError.alreadyRegistered m)
       ∧ (registerSite s [m] vc opts).1.site = s)
    ∧ (siteIsRegistered s m = false →
       (unregisterSite s [m]).2 = some (RegError.notRegistered m))
    ∧ (m.isAbstract = false → siteIsRegistered s m = false →
       siteIsRegistered (registerSite s [m] vc opts).1.site m = true
       ∧ siteIsRegistered
           (unregisterSite (registerSite s [m] vc opts).1.site [m]).1 m
           = false) := by
  refine ⟨?_, ?_, ?_⟩
  · intro habs hreg
    unfold registerSite registerLoop
    simp [habs, hreg]
  · intro hreg
    unfold unregisterSite
    simp [hreg]
  · intro habs hreg
    have hsite : (registerSite s [m] vc opts).1.site
        = { s with registry := s.registry
            ++ [(m, ViewCls.synth (m.name ++ "Admin") (vc.getD s.defaultViewClass)
                  (mapInsert opts "__doc__" (generateDocs m)))] } := by
      unfold registerSite registerLoop
      simp [habs, hreg, registerLoop]
    constructor
    · rw [hsite]
      unfold siteIsRegistered
      rw [any_key_append]
      simp [siteIsRegistered]
    · have hregd : siteIsRegistered (registerSite s [m] vc opts).1.site m
          = true := by
        rw [hsite]
        unfold siteIsRegistered
        rw [any_key_append]
        simp [siteIsRegistered]
      unfold unregisterSite
      simp only [hregd, if_true]
      unfold siteIsRegistered
      exact any_key_filter_self _ m

theorem c8_registry_lifecycle_wit :
    widgetModel.isAbstract = false
    ∧ siteIsRegistered emptySite widgetModel = false
    ∧ (unregisterSite emptySite [widgetModel]).2
        = some (RegError.notRegistered widgetModel)
    ∧ siteIsRegistered
        (registerSite emptySite [widgetModel] none []).1.site widgetModel
        = true
    ∧ siteIsRegistered
        (unregisterSite
          (registerSite emptySite [widgetModel] none []).1.site
          [widgetModel]).1 widgetModel = false := by
  have habs : widgetModel.isAbstract = false := rfl
  have hreg : siteIsRegistered emptySite widgetModel = false := rfl
  have h := (c8_registry_lifecycle emptySite widgetModel none []).2
  exact ⟨habs, hreg, h.1 hreg, (h.2 habs hreg).1, (h.2 habs hreg).2⟩

/-! ## Claim C9 -/

/-- Claim C9: registration of an iterable is not atomic — when the first
model registers successfully and the second is abstract, equal to the
first, or already registered, the call raises but the first model remains
registered. -/
theorem c9_register_not_atomic (s : Site) (m1 m2 : Model)
    (vc : Option ViewCls) (opts : List (String × String))
    (h1a : m1.isAbstract = false) (h1r : siteIsRegistered s m1 = false)
    (h2 : m2.isAbstract = true ∨ m2 = m1 ∨ siteIsRegistered s m2 = true) :
    ((registerSite s [m1, m2] vc opts).2).isSome = true
    ∧ siteIsRegistered (registerSite s [m1, m2] vc opts).1.site m1
        = true := by
  unfold registerSite registerLoop
  simp only [h1a, Bool.false_eq_true, if_false, h1r, if_false]
  set cls1 := ViewCls.synth (m1.name ++ "Admin") (vc.getD s.defaultViewClass)
    (mapInsert opts "__doc__" (generateDocs m1)) with hcls1
  have hm1reg : siteIsRegistered
      { s with registry := s.registry ++ [(m1, cls1)] } m1 = true := by
    unfold siteIsRegistered
    rw [any_key_append]
    simp [siteIsRegistered]
  by_cases h2a : m2.isAbstract
  · simp [registerLoop, h2a, hm1reg]
  · have h2r : siteIsRegistered
        { s with registry := s.registry ++ [(m1, cls1)] } m2 = true := by
      unfold siteIsRegistered
      rw [any_key_append]
      rcases h2 with h | h | h
      · exact absurd h (by simp [h2a])
      · subst h
        simp
      · unfold siteIsRegistered at h
        simp [h]
    simp [registerLoop, h2a, h2r, hm1reg]

theorem c9_register_not_atomic_wit :
    widgetModel.isAbstract = false
    ∧ siteIsRegistered emptySite widgetModel = false
    ∧ ((registerSite emptySite [widgetModel, widgetModel] none []).2).isSome
        = true
    ∧ siteIsRegistered
        (registerSite emptySite [widgetModel, widgetModel] none []).1.site
        widgetModel = true := by
  have habs : widgetModel.isAbstract = false := rfl
  have hreg : siteIsRegistered emptySite widgetModel = false := rfl
  have h := c9_register_not_atomic emptySite widgetModel widgetModel none []
    habs hreg (Or.inr (Or.inl rfl))
  exact ⟨habs, hreg, h.1, h.2⟩

/-! ## Claim C10 -/

/-- Claim C10: registering two models in one call chains the synthesized
classes — the second model's handler inherits from the first synthesized
handler (which is distinct from the supplied class), and both namespaces
are the one options mapping with its documentation entry overwritten per
iteration (all other keys unchanged). -/
theorem c10_chained_synthesis (s : Site) (m1 m2 : Model) (vc : ViewCls)
    (opts : List (String × String))
    (h1a : m1.isAbstract = false) (h2a : m2.isAbstract = false)
    (h1r : siteIsRegistered s m1 = false)
    (h2r : siteIsRegistered s m2 = false) (hne : m2 ≠ m1) :
    (registerSite s [m1, m2] (some vc) opts).2 = none
    ∧ registeredClass (registerSite s [m1, m2] (some vc) opts).1.site m1
        = some (ViewCls.synth (m1.name ++ "Admin") vc
            (mapInsert opts "__doc__" (generateDocs m1)))
    ∧ registeredClass (registerSite s [m1, m2] (some vc) opts).1.site m2
        = some (ViewCls.synth (m2.name ++ "Admin")
            (ViewCls.synth (m1.name ++ "Admin") vc
              (mapInsert opts "__doc__" (generateDocs m1)))
            (mapInsert (mapInsert opts "__doc__" (generateDocs m1))
              "__doc__" (generateDocs m2)))
    ∧ (ViewCls.synth (m2.name ++ "Admin")
          (ViewCls.synth (m1.name ++ "Admin") vc
            (mapInsert opts "__doc__" (generateDocs m1)))
          (mapInsert (mapInsert opts "__doc__" (generateDocs m1))
            "__doc__" (generateDocs m2))).parentOf
        = some (ViewCls.synth (m1.name ++ "Admin") vc
            (mapInsert opts "__doc__" (generateDocs m1)))
    ∧ ViewCls.synth (m1.name ++ "Admin") vc
        (mapInsert opts "__doc__" (generateDocs m1)) ≠ vc
    ∧ mapLookup (mapInsert opts "__doc__" (generateDocs m1)) "__doc__"
        = some (generateDocs m1)
    ∧ mapLookup (mapInsert (mapInsert opts "__doc__" (generateDocs m1))
        "__doc__" (generateDocs m2)) "__doc__" = some (generateDocs m2)
    ∧ ∀ k, k ≠ "__doc__" →
        mapLookup (mapInsert (mapInsert opts "__doc__" (generateDocs m1))
          "__doc__" (generateDocs m2)) k = mapLookup opts k := by
  set o1 := mapInsert opts "__doc__" (generateDocs m1) with ho1
  set c1 := ViewCls.synth (m1.name ++ "Admin") vc o1 with hc1
  set o2 := mapInsert o1 "__doc__" (generateDocs m2) with ho2
  set c2 := ViewCls.synth (m2.name ++ "Admin") c1 o2 with hc2
  have hne2 : ¬ (m1 = m2) := fun h => hne h.symm
  have h2r1 : siteIsRegistered
      { s with registry := s.registry ++ [(m1, c1)] } m2 = false := by
    unfold siteIsRegistered
    rw [any_key_append]
    unfold siteIsRegistered at h2r
    simp [h2r, hne2]
  have hrun : registerSite s [m1, m2] (some vc) opts
      = (⟨{ s with registry := s.registry ++ [(m1, c1)] ++ [(m2, c2)] },
          c2, o2⟩, none) := by
    unfold registerSite registerLoop
    simp only [Option.getD_some, h1a, Bool.false_eq_true, if_false, h1r,
      if_false, ← ho1, ← hc1]
    unfold registerLoop
    simp only [h2a, Bool.false_eq_true, if_false, h2r1, if_false, ← ho2,
      ← hc2]
    unfold registerLoop
    simp [List.append_assoc]
  refine ⟨by rw [hrun], ?_, ?_, rfl, synth_ne_parent _ _ _,
    mapLookup_mapInsert_self _ _ _, mapLookup_mapInsert_self _ _ _, ?_⟩
  · rw [hrun]
    unfold registeredClass
    simp only []
    rw [List.append_assoc, find_key_append _ _ _ h1r]
    simp
  · rw [hrun]
    unfold registeredClass
    simp only []
    rw [List.append_assoc, find_key_append _ _ _ h2r]
    simp [List.find?_cons, hne2]
  · intro k hk
    rw [mapLookup_mapInsert_ne _ _ _ _ hk, mapLookup_mapInsert_ne _ _ _ _ hk]

theorem c10_chained_synthesis_wit :
    widgetModel.isAbstract = false
    ∧ gadgetModel.isAbstract = false
    ∧ siteIsRegistered emptySite widgetModel = false
    ∧ siteIsRegistered emptySite gadgetModel = false
    ∧ gadgetModel ≠ widgetModel
    ∧ registeredClass
        (registerSite emptySite [widgetModel, gadgetModel]
          (some (ViewCls.base "RestFulAdminMVS")) []).1.site gadgetModel
        = some (ViewCls.synth "GadgetAdmin"
            (ViewCls.synth "WidgetAdmin" (ViewCls.base "RestFulAdminMVS")
              [("__doc__", generateDocs widgetModel)])
            [("__doc__", generateDocs gadgetModel)]) := by
  have h1a : widgetModel.isAbstract = false := rfl
  have h2a : gadgetModel.isAbstract = false := rfl
  have h1r : siteIsRegistered emptySite widgetModel = false := rfl
  have h2r : siteIsRegistered emptySite gadgetModel = false := rfl
  have hne : gadgetModel ≠ widgetModel := by decide
  have h := (c10_chained_synthesis emptySite widgetModel gadgetModel
    (ViewCls.base "RestFulAdminMVS") [] h1a h2a h1r h2r hne).2.2.1
  exact ⟨h1a, h2a, h1r, h2r, hne, h⟩

end AdminDrf
